import Mathlib

/-!
# Verification of the EV range prediction pipeline

Shallow embedding of the repository's feature-engineering pipeline
(`data-loader.js`, function names kept) and of the training/prediction
orchestrator (`app.js`, both the `src/app.js` and `src/application/app.js`
variants), together with theorems settling the specification claims.

JavaScript numbers are modelled as exact rationals (ℚ) for parsed CSV
values, with a separate `nan` constructor for IEEE NaN; real-valued
statistics (which involve `Math.sqrt`) live in ℝ.
-/

namespace EV

/-- A JavaScript scalar value as it occurs in a parsed CSV row or a user
input object: a (finite) number, the number `NaN`, a string, `null`, or
`undefined`. -/
inductive JSVal where
  | num (q : ℚ)
  | nan
  | str (s : String)
  | null
  | undef
  deriving DecidableEq, Repr

/-- A parsed CSV row / user-input object: an association list from column
name to value, as built by `parseCSV` / the `userInput` object literal. -/
abbrev Row := List (String × JSVal)

/-- Property access `row[k]`: first binding of key `k`, `none` when the key is absent
(JavaScript `undefined` via property absence). -/
def Row.get (r : Row) (k : String) : Option JSVal :=
  (r.find? (fun p => p.1 = k)).map (·.2)

/-- Numeric feature columns (data-loader.js lines 80–84). -/
def numericalFeatures : List String :=
  ["top_speed_kmh", "battery_capacity_kWh", "torque_nm",
   "acceleration_0_100_s", "fast_charging_power_kw_dc", "seats",
   "length_mm", "width_mm", "height_mm"]

/-- Categorical feature columns (data-loader.js lines 86–88). -/
def categoricalFeatures : List String := ["fast_charge_port", "drivetrain"]

/-- The regression target column (data-loader.js line 91). -/
def targetColumn : String := "range_km"

/-! ## JavaScript string builtins

`trim()`, `split(sep)`, `isNaN(value)` and `parseFloat(value)` are
ECMAScript builtins, external to the repository; they are modelled here
directly on character lists (the numeric conversions for decimal
literals `[sign] digits [. digits]`, which covers every cell shape the
pipeline distinguishes). -/

/-- Model of `String.prototype.trim`: strip leading and trailing whitespace. -/
def jsTrim (s : String) : String :=
  String.mk ((s.data.dropWhile Char.isWhitespace).reverse.dropWhile Char.isWhitespace).reverse

/-- Split a character list at every occurrence of `sep`. -/
def splitChar (sep : Char) : List Char → List (List Char)
  | [] => [[]]
  | c :: rest =>
    if c = sep then [] :: splitChar sep rest
    else
      match splitChar sep rest with
      | [] => [[c]]
      | h :: t => (c :: h) :: t

/-- Model of `String.prototype.split` with a one-character separator. -/
def jsSplit (s : String) (sep : Char) : List String :=
  (splitChar sep s.data).map String.mk

/-- Value of a digit string as a natural number. -/
def digitsToNat (l : List Char) : ℕ :=
  l.foldl (fun a c => 10 * a + (c.toNat - 48)) 0

/-- Exact rational value of `intPart . fracPart`. -/
def decToQ (intPart fracPart : List Char) : ℚ :=
  (digitsToNat intPart : ℚ) + (digitsToNat fracPart : ℚ) / (10 : ℚ) ^ fracPart.length

/-- An unsigned decimal literal `digits [. digits]` consuming the whole
input, or `none` when the input is not one. -/
def parseUnsignedDec (l : List Char) : Option ℚ :=
  let ds := l.takeWhile (·.isDigit)
  let rest := l.dropWhile (·.isDigit)
  match rest with
  | [] => if ds.isEmpty then none else some (digitsToNat ds)
  | '.' :: frac =>
      if frac.all (·.isDigit) ∧ (ds ≠ [] ∨ frac ≠ []) then some (decToQ ds frac)
      else none
  | _ => none

/-- ECMAScript `ToNumber` on a string (modelled for decimal literals):
a whitespace-only string converts to `0`; otherwise an optional sign and
a decimal literal; anything else converts to `NaN` (`none`). -/
def jsToNumber (s : String) : Option ℚ :=
  match (jsTrim s).data with
  | [] => some 0
  | '-' :: l => (parseUnsignedDec l).map (fun q => -q)
  | '+' :: l => parseUnsignedDec l
  | l => parseUnsignedDec l

/-- JavaScript `isNaN` applied to a string: `ToNumber` yields `NaN`.
In particular `isNaN("") = false`, because the empty string converts
to `0`. -/
def jsStrIsNaN (s : String) : Bool := (jsToNumber s).isNone

/-- The longest decimal-literal prefix, or `none` (`NaN`) when the input
starts with no digits at all. -/
def parseFloatPrefix (l : List Char) : Option ℚ :=
  let ds := l.takeWhile (·.isDigit)
  let rest := l.dropWhile (·.isDigit)
  match rest with
  | '.' :: rest2 =>
      let fs := rest2.takeWhile (·.isDigit)
      if ds.isEmpty && fs.isEmpty then none else some (decToQ ds fs)
  | _ => if ds.isEmpty then none else some (digitsToNat ds)

/-- ECMAScript `parseFloat` (modelled for decimal literals): longest
numeric prefix after optional sign; `parseFloat("") = NaN`. -/
def jsParseFloat (s : String) : Option ℚ :=
  match (jsTrim s).data with
  | '-' :: l => (parseFloatPrefix l).map (fun q => -q)
  | '+' :: l => parseFloatPrefix l
  | l => parseFloatPrefix l

/-- The cell coercion of `parseCSV` (data-loader.js line 58):
`row[header] = isNaN(value) ? value : parseFloat(value)`.  A cell that is
numeric-parsable becomes the number `parseFloat(value)` — possibly the
number `NaN` — otherwise the text is kept. -/
def coerceCell (s : String) : JSVal :=
  if jsStrIsNaN s then .str s
  else
    match jsParseFloat s with
    | some q => .num q
    | none => .nan

/-- Function `parseCSV` (data-loader.js lines 40–67): trim, split into lines, first
line is the header; each later line whose cell count matches the header
count becomes a row (cells trimmed then coerced); mismatching lines are
silently dropped.  Fewer than two lines is an error. -/
def parseCSV (csvText : String) : Except String (List Row) :=
  let lines := jsSplit (jsTrim csvText) '\n'
  if lines.length < 2 then
    .error "CSV file must contain header and at least one data row"
  else
    let headers := (jsSplit (lines.headD "") ',').map jsTrim
    let data := (lines.drop 1).foldl (fun acc line =>
      let values := (jsSplit line ',').map jsTrim
      if values.length ≠ headers.length then acc
      else acc ++ [headers.zip (values.map coerceCell)]) ([] : List Row)
    .ok data

/-! ## Row validation and filtering (`preprocessData` lines 111–127) -/

/-- JavaScript `isNaN` on a row value: numbers are not `NaN`, `NaN` is,
strings via `ToNumber`, `null` converts to `0` (so is not `NaN`),
`undefined` converts to `NaN`. -/
def jsIsNaN : JSVal → Bool
  | .num _ => false
  | .nan => true
  | .str s => jsStrIsNaN s
  | .null => false
  | .undef => true

/-- Test `row[f] !== undefined`: key present and not bound to `undefined`. -/
def isDefined : Option JSVal → Bool
  | none => false
  | some .undef => false
  | some _ => true

/-- Test `row[f] === null`. -/
def isNullV : Option JSVal → Bool
  | some .null => true
  | _ => false

/-- The target guard (lines 112–114): rows with `undefined`/`null` target
are skipped. -/
def targetOk (row : Row) : Bool :=
  isDefined (row.get targetColumn) && !isNullV (row.get targetColumn)

/-- Predicate `hasAllFeatures` (lines 117–121): every numeric feature defined,
non-null and not `NaN`; every categorical feature defined and non-null. -/
def hasAllFeatures (row : Row) : Bool :=
  numericalFeatures.all (fun f =>
    isDefined (row.get f) && !isNullV (row.get f)
      && !jsIsNaN ((row.get f).getD .undef))
  && categoricalFeatures.all (fun f =>
    isDefined (row.get f) && !isNullV (row.get f))

/-- The valid filtered rows: the `features` array of `preprocessData`. -/
def validRows (raw : List Row) : List Row :=
  raw.filter (fun row => targetOk row && hasAllFeatures row)

/-! ## Fisher–Yates shuffle (`shuffleIndices`, data-loader.js lines 271–281) -/

/-- One destructuring swap `[indices[i], indices[j]] = [indices[j], indices[i]]`:
both right-hand sides are read from the original list, then written. -/
def swapAt (l : List ℕ) (i j : ℕ) : List ℕ :=
  (l.set i (l.getD j 0)).set j (l.getD i 0)

/-- The `for (let i = length - 1; i > 0; i--)` loop of `shuffleIndices`:
at index `i` the partner is `Math.floor(Math.random() * (i + 1))`, an
arbitrary draw in `[0, i]`, modelled by `rand i % (i + 1)`. -/
def fyAux (rand : ℕ → ℕ) : ℕ → List ℕ → List ℕ
  | 0, l => l
  | i + 1, l => fyAux rand i (swapAt l (i + 1) (rand (i + 1) % (i + 2)))

/-- Function `shuffleIndices(length)`: start from `[0, 1, …, length-1]` and run the
Fisher–Yates loop, parametrised by the random draws `rand`. -/
def shuffleIndices (n : ℕ) (rand : ℕ → ℕ) : List ℕ :=
  fyAux rand (n - 1) (List.range n)

/-- Model of `Math.floor(features.length * 0.8)`.  For every `n`, the double
product `n * 0.8` floors to `⌊4n/5⌋` (the rounding error of the double
`0.8` is far below the distance to the next integer), so the split index
is `4n/5` in exact arithmetic. -/
def splitIndex (n : ℕ) : ℕ := 4 * n / 5

lemma set_getD_self : ∀ (l : List ℕ) (i : ℕ), i < l.length → l.set i (l.getD i 0) = l
  | _ :: _, 0, _ => by simp
  | a :: t, i + 1, h => by
    simp only [List.set_cons_succ, List.cons.injEq, true_and]
    exact set_getD_self t i (by simpa using h)

lemma cons_getElem_set_perm : ∀ (t : List ℕ) (m : ℕ) (hm : m < t.length) (a : ℕ),
    List.Perm (t[m] :: t.set m a) (a :: t)
  | b :: _, 0, _, a => List.Perm.swap a b _
  | b :: t', m + 1, hm, a => by
    have hm' : m < t'.length := by simpa using hm
    have e : (b :: t')[m + 1] :: (b :: t').set (m + 1) a
        = t'[m] :: b :: t'.set m a := by simp
    rw [e]
    exact ((List.Perm.swap _ _ _).trans
      (((cons_getElem_set_perm t' m hm' a).cons b).trans (List.Perm.swap _ _ _)))

lemma getD_eq_getElem (l : List ℕ) (i : ℕ) (h : i < l.length) : l.getD i 0 = l[i] := by
  simp [List.getD_eq_getElem?_getD, List.getElem?_eq_getElem h]

lemma swap_set_perm : ∀ (l : List ℕ) (i j : ℕ) (hij : i < j) (hj : j < l.length),
    List.Perm ((l.set i (l.get ⟨j, hj⟩)).set j (l.get ⟨i, Nat.lt_trans hij hj⟩)) l
  | a :: t, 0, m + 1, _, hj => by
    have hm : m < t.length := by simpa using hj
    have e : ((a :: t).set 0 ((a :: t).get ⟨m + 1, hj⟩)).set (m + 1)
        ((a :: t).get ⟨0, by simp⟩) = t.get ⟨m, hm⟩ :: t.set m a := by
      simp
    rw [e]
    exact cons_getElem_set_perm t m hm a
  | a :: t, i' + 1, m + 1, hij, hj => by
    have hm : m < t.length := by simpa using hj
    have hij' : i' < m := by omega
    have e : ((a :: t).set (i' + 1) ((a :: t).get ⟨m + 1, hj⟩)).set (m + 1)
        ((a :: t).get ⟨i' + 1, Nat.lt_trans hij hj⟩)
        = a :: ((t.set i' (t.get ⟨m, hm⟩)).set m (t.get ⟨i', Nat.lt_trans hij' hm⟩)) := by
      simp
    rw [e]
    exact (swap_set_perm t i' m hij' hm).cons a

/-- A single in-bounds swap is a permutation. -/
lemma swapAt_perm (l : List ℕ) (i j : ℕ) (hi : i < l.length) (hj : j < l.length) :
    List.Perm (swapAt l i j) l := by
  rcases eq_or_ne i j with rfl | hne
  · unfold swapAt
    rw [List.set_set, set_getD_self l i hi]
  · unfold swapAt
    rw [getD_eq_getElem l j hj, getD_eq_getElem l i hi]
    rcases Nat.lt_or_ge i j with hij | hge
    · have := swap_set_perm l i j hij hj
      simpa using this
    · have hji : j < i := by omega
      have comm : (l.set i l[j]).set j l[i] = (l.set j l[i]).set i l[j] :=
        List.set_comm _ _ l hne
      rw [comm]
      have := swap_set_perm l j i hji hi
      simpa using this

/-- The Fisher–Yates loop preserves the list up to permutation. -/
lemma fyAux_perm (rand : ℕ → ℕ) : ∀ (i : ℕ) (l : List ℕ), i < l.length →
    List.Perm (fyAux rand i l) l
  | 0, _, _ => List.Perm.refl _
  | i + 1, l, h => by
    have hlen : (swapAt l (i + 1) (rand (i + 1) % (i + 2))).length = l.length := by
      simp [swapAt]
    have hj : rand (i + 1) % (i + 2) < l.length :=
      lt_of_le_of_lt (Nat.le_of_lt_succ (Nat.mod_lt _ (by omega))) h
    have step : List.Perm (swapAt l (i + 1) (rand (i + 1) % (i + 2))) l :=
      swapAt_perm l (i + 1) _ h hj
    have rec : List.Perm (fyAux rand i (swapAt l (i + 1) (rand (i + 1) % (i + 2))))
        (swapAt l (i + 1) (rand (i + 1) % (i + 2))) :=
      fyAux_perm rand i _ (by rw [hlen]; omega)
    exact rec.trans step

/-- The list `shuffleIndices n` is always a permutation of `[0, …, n-1]`. -/
lemma shuffleIndices_perm (n : ℕ) (rand : ℕ → ℕ) :
    List.Perm (shuffleIndices n rand) (List.range n) := by
  unfold shuffleIndices
  rcases n with _ | m
  · simp [fyAux]
  · rcases m with _ | m'
    · simp [fyAux]
    · exact fyAux_perm rand (m' + 1) _ (by simp)

/-! ## Fitted statistics (`preprocessData` lines 145–153) -/

/-- Per-feature normalization statistics. -/
structure Stats where
  mean : ℝ
  std : ℝ

instance : Inhabited Stats := ⟨⟨0, 0⟩⟩

/-- Numeric value of a row's feature.  Post-filter this is always a
`num`; any other shape would propagate `NaN` in JavaScript and is mapped
to `0` here (unreachable on the pipeline's filtered inputs). -/
def numValR (v : Option JSVal) : ℝ :=
  match v with
  | some (.num q) => (q : ℝ)
  | _ => 0

/-- The statistics loop (lines 147–153): arithmetic mean, population
variance, `std = Math.sqrt(variance)`, and
`std: std === 0 ? 1 : std` to avoid division by zero. -/
noncomputable def fitStats (rows : List Row) (f : String) : Stats :=
  let values := rows.map (fun r => numValR (r.get f))
  let mean := values.sum / (values.length : ℝ)
  let variance := (values.map (fun b => (b - mean) ^ 2)).sum / (values.length : ℝ)
  let std := Real.sqrt variance
  ⟨mean, if std = 0 then 1 else std⟩

/-- The spec's "arithmetic mean … over the entire set of valid filtered
rows", stated from the spec's words for comparison with `fitStats`. -/
noncomputable def specMean (rows : List Row) (f : String) : ℝ :=
  (rows.map (fun r => numValR (r.get f))).sum / (rows.length : ℝ)

/-- The spec's "population standard deviation" squared: the mean squared
deviation from the mean, stated from the spec's words. -/
noncomputable def specPopVariance (rows : List Row) (f : String) : ℝ :=
  (rows.map (fun r => (numValR (r.get f) - specMean rows f) ^ 2)).sum / (rows.length : ℝ)

/-! ## Categorical vocabularies (`preprocessData` lines 136–143) -/

/-- Sort key of comparator-less `Array.prototype.sort`: elements are
compared as strings (ECMAScript `ToString`, modelled here: strings are
themselves, numbers in decimal, the remaining values by their names). -/
def sortKey : JSVal → String
  | .str s => s
  | .num q => if q.den = 1 then toString q.num else toString q
  | .nan => "NaN"
  | .null => "null"
  | .undef => "undefined"

/-- Lexicographic comparison of character lists by code point: the
comparison `sort()` applies to its elements' string forms. -/
def charLE : List Char → List Char → Bool
  | [], _ => true
  | _ :: _, [] => false
  | a :: as, b :: bs =>
    if a.toNat < b.toNat then true
    else if b.toNat < a.toNat then false
    else charLE as bs

lemma charLE_total : ∀ a b, charLE a b = true ∨ charLE b a = true
  | [], _ => Or.inl rfl
  | _ :: _, [] => Or.inr rfl
  | a :: as, b :: bs => by
    by_cases h1 : a.toNat < b.toNat
    · left
      simp [charLE, h1]
    · by_cases h2 : b.toNat < a.toNat
      · right
        simp [charLE, h2]
      · rcases charLE_total as bs with h | h
        · left
          simp [charLE, h1, h2, h]
        · right
          simp [charLE, h1, h2, h]

lemma charLE_trans : ∀ a b c, charLE a b = true → charLE b c = true →
    charLE a c = true
  | [], _, _, _, _ => rfl
  | _ :: _, [], _, h1, _ => by simp [charLE] at h1
  | _ :: _, _ :: _, [], _, h2 => by simp [charLE] at h2
  | a :: as, b :: bs, c :: cs, h1, h2 => by
    simp only [charLE] at h1 h2 ⊢
    split at h1
    · split at h2
      · rw [if_pos (by omega)]
      · split at h2
        · exact absurd h2 (by simp)
        · rw [if_pos (by omega)]
    · split at h1
      · exact absurd h1 (by simp)
      · split at h2
        · rw [if_pos (by omega)]
        · split at h2
          · exact absurd h2 (by simp)
          · rw [if_neg (by omega), if_neg (by omega)]
            exact charLE_trans as bs cs h1 h2

/-- The string order on sort keys used by comparator-less `sort()`
(lexicographic by code point — the natural string order). -/
def keyLE (a b : JSVal) : Prop := charLE (sortKey a).data (sortKey b).data = true

instance : DecidableRel keyLE := fun _ _ => inferInstanceAs (Decidable (_ = true))

instance : IsTotal JSVal keyLE := ⟨fun a b => charLE_total (sortKey a).data (sortKey b).data⟩

instance : IsTrans JSVal keyLE := ⟨fun _ _ _ h1 h2 => charLE_trans _ _ _ h1 h2⟩

/-- Model of `[...new Set(xs)]`: deduplicate keeping first occurrences in order. -/
def jsSetList (l : List JSVal) : List JSVal :=
  l.foldl (fun acc v => if v ∈ acc then acc else acc ++ [v]) []

/-- One feature's vocabulary (line 138):
`[...new Set(features.map(f => f[feature]))].sort()`. -/
def fitVocab (rows : List Row) (f : String) : List JSVal :=
  List.insertionSort keyLE (jsSetList (rows.map (fun r => (r.get f).getD .undef)))

/-- The categorical-mapping loop (lines 136–143): the first feature with
an empty vocabulary raises; otherwise every categorical feature maps to
its sorted distinct values. -/
def fitVocabAll (rows : List Row) : Except String (String → List JSVal) :=
  match categoricalFeatures.find? (fun f => (fitVocab rows f).isEmpty) with
  | some f => .error f
  | none => .ok (fun f => fitVocab rows f)

/-! ## `transformFeatures` (data-loader.js lines 218–239) -/

/-- One one-hot block:
`categories.forEach(c => transformed.push(value === c ? 1 : 0))`.
An `undefined` value (`none`) matches no category. -/
def oneHotBlock (categories : List JSVal) (value : Option JSVal) : List ℝ :=
  categories.map (fun c => if value = some c then (1 : ℝ) else 0)

/-- Function `transformFeatures(row)`: normalized numeric values
`(value - mean) / std` in fixed feature order, then the one-hot block of
each categorical feature in fixed order. -/
noncomputable def transformFeatures (row : Row) (stats : String → Stats)
    (vocab : String → List JSVal) : List ℝ :=
  (numericalFeatures.map (fun f =>
    (numValR (row.get f) - (stats f).mean) / (stats f).std))
  ++ categoricalFeatures.flatMap (fun f => oneHotBlock (vocab f) (row.get f))

/-- The transformed vector length never depends on the row: number of
numeric features plus the sum of the vocabulary sizes. -/
lemma transformFeatures_length (row : Row) (stats : String → Stats)
    (vocab : String → List JSVal) :
    (transformFeatures row stats vocab).length
      = numericalFeatures.length
        + (categoricalFeatures.map (fun f => (vocab f).length)).sum := by
  simp [transformFeatures, oneHotBlock, List.flatMap, Function.comp_def]

/-! ## `preprocessData` (data-loader.js lines 73–209) -/

/-- The columns whose presence is checked on the sample row
(lines 93–105), in check order. -/
def requiredColumns : List String :=
  numericalFeatures ++ categoricalFeatures ++ [targetColumn]

/-- The required columns absent from the sample row (`in` checks property
presence, including properties bound to `undefined`). -/
def missingCols (sampleRow : Row) : List String :=
  requiredColumns.filter (fun c => !(Row.get sampleRow c).isSome)

/-- Errors raised by `preprocessData`, by source line. -/
inductive PErr where
  | noData
  | missingColumns (cols : List String)
  | emptyDataset
  | emptyVocab (f : String)
  | shapeError
  | insufficientData
  deriving DecidableEq, Repr

/-- The result object, with the fitted statistics and vocabulary (held as
instance state in the source) included. -/
structure Processed where
  trainFeatures : List (List ℝ)
  trainTargets : List ℝ
  testFeatures : List (List ℝ)
  testTargets : List ℝ
  inputShape : ℕ
  stats : String → Stats
  vocab : String → List JSVal

/-- Function `preprocessData(rawData)`: verify columns, filter rows, fit
vocabularies and statistics, transform all rows, verify shapes, 80/20
split check, shuffle, slice. -/
noncomputable def preprocessData (raw : List Row) (rand : ℕ → ℕ) :
    Except PErr Processed :=
  if raw.isEmpty then .error .noData
  else if !(missingCols (raw.headD [])).isEmpty then
    .error (.missingColumns (missingCols (raw.headD [])))
  else
    let features := validRows raw
    let targets := features.map (fun r => numValR (r.get targetColumn))
    if features.isEmpty then .error .emptyDataset
    else
      match fitVocabAll features with
      | .error f => .error (.emptyVocab f)
      | .ok vocab =>
        let stats := fitStats features
        let transformed := features.map (fun r => transformFeatures r stats vocab)
        let inputShape := (transformed.headD []).length
        if !(transformed.filter (fun t => decide (t.length ≠ inputShape))).isEmpty then
          .error .shapeError
        else
          let n := features.length
          if splitIndex n < 1 ∨ n - splitIndex n < 1 then .error .insufficientData
          else
            let shuffled := shuffleIndices n rand
            let trainIndices := shuffled.take (splitIndex n)
            let testIndices := shuffled.drop (splitIndex n)
            let trainFeatures := trainIndices.map (fun i => transformed.getD i [])
            .ok { trainFeatures := trainFeatures
                  trainTargets := trainIndices.map (fun i => targets.getD i 0)
                  testFeatures := testIndices.map (fun i => transformed.getD i [])
                  testTargets := testIndices.map (fun i => targets.getD i 0)
                  inputShape := (trainFeatures.headD []).length
                  stats := stats
                  vocab := vocab }

/-- Claim C1: For every dataset of `n` valid rows, `Split` partitions the row
indices with a Fisher–Yates-shuffled permutation: `shuffleIndices n` is a
permutation of `[0, …, n-1]`; the train group is its first
`floor(n * 0.8)` entries and the test group the remainder, so the two
groups are disjoint, their union is exactly the set of all valid row
indices, and `|train| + |test| = n`. -/
theorem c1_split_partitions_valid_rows (n : ℕ) (rand : ℕ → ℕ) :
    List.Perm (shuffleIndices n rand) (List.range n)
    ∧ ((shuffleIndices n rand).take (splitIndex n)).Disjoint
        ((shuffleIndices n rand).drop (splitIndex n))
    ∧ ((shuffleIndices n rand).take (splitIndex n)).toFinset
        ∪ ((shuffleIndices n rand).drop (splitIndex n)).toFinset
        = (List.range n).toFinset
    ∧ ((shuffleIndices n rand).take (splitIndex n)).length
        + ((shuffleIndices n rand).drop (splitIndex n)).length = n := by
  have hperm := shuffleIndices_perm n rand
  have hnodup : (shuffleIndices n rand).Nodup :=
    hperm.symm.nodup (List.nodup_range n)
  have hsplit := List.take_append_drop (splitIndex n) (shuffleIndices n rand)
  refine ⟨hperm, ?_, ?_, ?_⟩
  · have : ((shuffleIndices n rand).take (splitIndex n)
        ++ (shuffleIndices n rand).drop (splitIndex n)).Nodup := by
      rw [hsplit]; exact hnodup
    exact List.disjoint_of_nodup_append this
  · rw [← List.toFinset_append, hsplit]
    exact List.toFinset_eq_of_perm _ _ hperm
  · have := congrArg List.length hsplit
    rw [List.length_append] at this
    rw [this, hperm.length_eq, List.length_range]

/-- Claim C10: During ingest a cell that is empty (or whitespace-only, so
empty after trimming) is coerced to the number `NaN` rather than kept as
text — the parser's `isNaN("")` test is `false` since the empty string is
numeric-parsable (`ToNumber("") = 0`) while `parseFloat("") = NaN` — and
consequently a row whose numeric-feature cell carried such a value is
excluded by the non-numeric filter of `Validate&Filter`. -/
theorem c10_empty_cell_coerces_to_nan_and_is_filtered :
    (∀ s : String, jsTrim s = "" →
      jsStrIsNaN (jsTrim s) = false ∧ coerceCell (jsTrim s) = JSVal.nan)
    ∧ (∀ (raw : List Row) (row : Row) (f : String), f ∈ numericalFeatures →
        Row.get row f = some JSVal.nan → row ∉ validRows raw) := by
  constructor
  · intro s hs
    rw [hs]
    exact ⟨by decide, by decide⟩
  · intro raw row f hf hv hmem
    have hpred := (List.mem_filter.mp hmem).2
    rw [Bool.and_eq_true] at hpred
    have hall := hpred.2
    unfold hasAllFeatures at hall
    rw [Bool.and_eq_true, List.all_eq_true] at hall
    have hnum := hall.1 f hf
    rw [hv] at hnum
    simp [isDefined, isNullV, jsIsNaN] at hnum

/-- A raw row whose sole numeric cell was ingested as `NaN`. -/
def exRowC10 : Row := [("top_speed_kmh", JSVal.nan)]

/-- Witness for C10: the whitespace-only cell `" "` trims to the empty
string and coerces to `NaN`; a row holding `NaN` in the numeric feature
`top_speed_kmh` is excluded from the valid rows. -/
theorem c10_witness :
    (jsTrim " " = "" ∧ coerceCell (jsTrim " ") = JSVal.nan)
    ∧ ("top_speed_kmh" ∈ numericalFeatures
        ∧ Row.get exRowC10 "top_speed_kmh" = some JSVal.nan
        ∧ exRowC10 ∉ validRows [exRowC10]) :=
  ⟨⟨by decide, (c10_empty_cell_coerces_to_nan_and_is_filtered.1 " " (by decide)).2⟩,
   by decide, by decide,
   c10_empty_cell_coerces_to_nan_and_is_filtered.2 [exRowC10] exRowC10 "top_speed_kmh"
     (by decide) (by decide)⟩

/-- Membership in the JS-`Set` deduplication fold. -/
lemma jsSetList_fold_mem : ∀ (l acc : List JSVal) (v : JSVal),
    v ∈ l.foldl (fun acc v => if v ∈ acc then acc else acc ++ [v]) acc
      ↔ v ∈ acc ∨ v ∈ l
  | [], acc, v => by simp
  | a :: t, acc, v => by
    rw [List.foldl_cons, jsSetList_fold_mem t _ v]
    by_cases ha : a ∈ acc
    · simp only [if_pos ha, List.mem_cons]
      constructor
      · rintro (h | h)
        · exact Or.inl h
        · exact Or.inr (Or.inr h)
      · rintro (h | rfl | h)
        · exact Or.inl h
        · exact Or.inl ha
        · exact Or.inr h
    · simp only [if_neg ha, List.mem_append, List.mem_singleton, List.mem_cons]
      tauto

/-- The deduplication fold preserves `Nodup` of the accumulator. -/
lemma jsSetList_fold_nodup : ∀ (l acc : List JSVal), acc.Nodup →
    (l.foldl (fun acc v => if v ∈ acc then acc else acc ++ [v]) acc).Nodup
  | [], _, h => h
  | a :: t, acc, h => by
    rw [List.foldl_cons]
    by_cases ha : a ∈ acc
    · simpa [ha] using jsSetList_fold_nodup t acc h
    · have : (acc ++ [a]).Nodup := by
        rw [List.nodup_append]
        exact ⟨h, List.nodup_singleton a, by simpa using ha⟩
      simpa [ha] using jsSetList_fold_nodup t _ this

/-- The deduplication fold never empties a nonempty accumulator. -/
lemma jsSetList_fold_ne_nil : ∀ (l acc : List JSVal), acc ≠ [] →
    l.foldl (fun acc v => if v ∈ acc then acc else acc ++ [v]) acc ≠ []
  | [], _, h => h
  | a :: t, acc, h => by
    rw [List.foldl_cons]
    by_cases ha : a ∈ acc
    · simpa [ha] using jsSetList_fold_ne_nil t acc h
    · simpa [ha] using jsSetList_fold_ne_nil t (acc ++ [a]) (by simp)

lemma jsSetList_mem (l : List JSVal) (v : JSVal) : v ∈ jsSetList l ↔ v ∈ l := by
  unfold jsSetList
  rw [jsSetList_fold_mem]
  simp

lemma jsSetList_nodup (l : List JSVal) : (jsSetList l).Nodup :=
  jsSetList_fold_nodup l [] List.nodup_nil

lemma jsSetList_ne_nil {l : List JSVal} (h : l ≠ []) : jsSetList l ≠ [] := by
  rcases l with _ | ⟨a, t⟩
  · exact absurd rfl h
  · unfold jsSetList
    rw [List.foldl_cons]
    exact jsSetList_fold_ne_nil t _ (by simp)

/-- A vocabulary fitted on at least one row is never empty. -/
lemma fitVocab_ne_nil {rows : List Row} (h : rows ≠ []) (g : String) :
    fitVocab rows g ≠ [] := by
  unfold fitVocab
  intro hnil
  have hperm := List.perm_insertionSort keyLE
    (jsSetList (rows.map (fun r => (r.get g).getD .undef)))
  rw [hnil] at hperm
  exact jsSetList_ne_nil (by simpa using h) hperm.symm.eq_nil

/-- With at least one surviving row the vocabulary loop cannot fail. -/
lemma fitVocabAll_ok {rows : List Row} (h : rows ≠ []) :
    fitVocabAll rows = .ok (fun g => fitVocab rows g) := by
  unfold fitVocabAll
  have hfind : categoricalFeatures.find? (fun g => (fitVocab rows g).isEmpty) = none := by
    rw [List.find?_eq_none]
    intro g _
    simpa [List.isEmpty_iff] using fitVocab_ne_nil h g
  rw [hfind]

/-- Claim C9: `FitVocabulary` produces, for each feature, exactly the
distinct observed values, sorted ascending by the `sort()` order (natural
string order of the keys); the mapping loop fails on the first feature
with zero distinct values, and whenever at least one row survived
filtering that error branch is unreachable: the loop returns the full
vocabulary mapping. -/
theorem c9_fitVocabulary_sorted_distinct_nonempty (rows : List Row) (f : String) :
    List.Sorted keyLE (fitVocab rows f)
    ∧ (fitVocab rows f).Nodup
    ∧ (∀ v, v ∈ fitVocab rows f ↔ v ∈ rows.map (fun r => (r.get f).getD .undef))
    ∧ (rows ≠ [] → fitVocabAll rows = .ok (fun g => fitVocab rows g)) := by
  refine ⟨List.sorted_insertionSort keyLE _, ?_, ?_, ?_⟩
  · exact ((List.perm_insertionSort keyLE _).symm).nodup (jsSetList_nodup _)
  · intro v
    unfold fitVocab
    rw [List.mem_insertionSort, jsSetList_mem]
  · intro hrows
    exact fitVocabAll_ok hrows

/-- A single surviving row for the C9 witness. -/
def exRowsC9 : List Row :=
  [[("fast_charge_port", JSVal.str "CCS"), ("drivetrain", JSVal.str "AWD")]]

/-- Witness for C9: with one surviving row the vocabulary loop cannot hit
the empty-vocabulary error and returns the full mapping. -/
theorem c9_witness :
    exRowsC9 ≠ []
    ∧ fitVocabAll exRowsC9 = .ok (fun g => fitVocab exRowsC9 g) :=
  ⟨by decide,
   (c9_fitVocabulary_sorted_distinct_nonempty exRowsC9 "drivetrain").2.2.2 (by decide)⟩

/-- Claim C2: For every record and every fitted statistics/vocabulary,
`Transform` returns the normalized numeric values `(value - mean) / std`
in fixed feature order followed by one one-hot block per categorical
feature in fixed order; a categorical value not present in the fitted
vocabulary yields an all-zero one-hot block (no failure possible: the
function is total), and the vector length is always the number of
numeric features plus the sum of the vocabulary sizes. -/
theorem c2_transform_shape_and_unseen_category (row : Row) (stats : String → Stats)
    (vocab : String → List JSVal) :
    (transformFeatures row stats vocab).length
      = numericalFeatures.length
        + (categoricalFeatures.map (fun f => (vocab f).length)).sum
    ∧ transformFeatures row stats vocab
        = (numericalFeatures.map (fun f =>
            (numValR (row.get f) - (stats f).mean) / (stats f).std))
          ++ categoricalFeatures.flatMap (fun f => oneHotBlock (vocab f) (row.get f))
    ∧ (∀ f, (∀ c ∈ vocab f, row.get f ≠ some c) →
        oneHotBlock (vocab f) (row.get f) = List.replicate (vocab f).length 0) := by
  refine ⟨transformFeatures_length row stats vocab, rfl, ?_⟩
  intro f h
  unfold oneHotBlock
  rw [List.eq_replicate_iff]
  refine ⟨by simp, ?_⟩
  intro b hb
  rcases List.mem_map.mp hb with ⟨c, hc, rfl⟩
  simp [h c hc]

/-- A user record whose `drivetrain` value was never seen while fitting. -/
def exRowC2 : Row := [("drivetrain", JSVal.str "6WD")]

/-- A fitted two-category vocabulary not containing `"6WD"`. -/
def exVocabC2 : String → List JSVal := fun _ => [JSVal.str "AWD", JSVal.str "FWD"]

/-- Witness for C2: the unseen category `drivetrain = "6WD"` transforms
to an all-zero one-hot block of unchanged width. -/
theorem c2_witness :
    (∀ c ∈ exVocabC2 "drivetrain", Row.get exRowC2 "drivetrain" ≠ some c)
    ∧ oneHotBlock (exVocabC2 "drivetrain") (Row.get exRowC2 "drivetrain")
        = List.replicate (exVocabC2 "drivetrain").length 0 :=
  ⟨by decide,
   (c2_transform_shape_and_unseen_category exRowC2 (fun _ => ⟨0, 1⟩) exVocabC2).2.2
     "drivetrain" (by decide)⟩

/-- Did a stage succeed?  (`Except` success test.) -/
def isOk {e a : Type} : Except e a → Bool
  | .ok _ => true
  | .error _ => false

/-- The statistics carried by a preprocessing outcome (defaults on the
error branch). -/
noncomputable def statsOf (e : Except PErr Processed) : String → Stats :=
  match e with
  | .ok r => r.stats
  | .error _ => fun _ => default

/-- Whatever branch succeeds, the stored statistics are the ones fitted
on the full filtered row set — before and independent of the split. -/
lemma preprocessData_ok_stats (raw : List Row) (rand : ℕ → ℕ) (res : Processed)
    (h : preprocessData raw rand = .ok res) : res.stats = fitStats (validRows raw) := by
  unfold preprocessData at h
  dsimp only at h
  split at h
  · exact absurd h (by simp)
  · split at h
    · exact absurd h (by simp)
    · split at h
      · exact absurd h (by simp)
      · split at h
        · exact absurd h (by simp)
        · split at h
          · exact absurd h (by simp)
          · split at h
            · exact absurd h (by simp)
            · rw [Except.ok.injEq] at h
              rw [← h]

lemma specPopVariance_nonneg (rows : List Row) (f : String) :
    0 ≤ specPopVariance rows f := by
  unfold specPopVariance
  apply div_nonneg
  · apply List.sum_nonneg
    intro x hx
    rcases List.mem_map.mp hx with ⟨r, _, rfl⟩
    positivity
  · positivity

lemma fitStats_mean_eq (rows : List Row) (f : String) :
    (fitStats rows f).mean = specMean rows f := by
  simp [fitStats, specMean]

lemma fitStats_std_eq (rows : List Row) (f : String) :
    (fitStats rows f).std
      = if Real.sqrt (specPopVariance rows f) = 0 then 1
        else Real.sqrt (specPopVariance rows f) := by
  simp only [fitStats, specPopVariance, specMean, List.map_map, Function.comp_def,
    List.length_map]

/-- Claim C3: `FitStatistics` computes, per numeric feature, the arithmetic
mean and the population standard deviation over the entire valid filtered
row set (stored once, before the split, independent of the shuffle), and
substitutes `1` whenever the computed standard deviation is exactly `0`
(equivalently, whenever the population variance is `0`; otherwise the
stored value is the genuine population standard deviation). -/
theorem c3_fitStatistics_population_over_all_valid_rows :
    (∀ (raw : List Row) (rand : ℕ → ℕ) (f : String),
        isOk (preprocessData raw rand) = true →
        statsOf (preprocessData raw rand) f = fitStats (validRows raw) f)
    ∧ (∀ (rows : List Row) (f : String),
        (fitStats rows f).mean = specMean rows f
        ∧ (specPopVariance rows f = 0 → (fitStats rows f).std = 1)
        ∧ (specPopVariance rows f ≠ 0 →
            (fitStats rows f).std = Real.sqrt (specPopVariance rows f))) := by
  constructor
  · intro raw rand f hok
    rcases hres : preprocessData raw rand with e | res
    · rw [hres] at hok
      simp [isOk] at hok
    · show res.stats f = _
      rw [preprocessData_ok_stats raw rand res hres]
  · intro rows f
    refine ⟨fitStats_mean_eq rows f, ?_, ?_⟩
    · intro h0
      rw [fitStats_std_eq, h0]
      simp
    · intro hne
      have hpos : 0 < specPopVariance rows f :=
        lt_of_le_of_ne (specPopVariance_nonneg rows f) (Ne.symm hne)
      rw [fitStats_std_eq, if_neg (ne_of_gt (Real.sqrt_pos.mpr hpos))]

/-- A fully valid raw row (values of the spec's sample row). -/
def exRow1 : Row :=
  [("top_speed_kmh", .num 150), ("battery_capacity_kWh", .num 60),
   ("torque_nm", .num 310), ("acceleration_0_100_s", .num (15 / 2)),
   ("fast_charging_power_kw_dc", .num 100), ("fast_charge_port", .str "CCS"),
   ("seats", .num 5), ("drivetrain", .str "AWD"), ("length_mm", .num 4500),
   ("width_mm", .num 1850), ("height_mm", .num 1550), ("range_km", .num 400)]

/-- A second fully valid raw row. -/
def exRow2 : Row :=
  [("top_speed_kmh", .num 180), ("battery_capacity_kWh", .num 75),
   ("torque_nm", .num 350), ("acceleration_0_100_s", .num 6),
   ("fast_charging_power_kw_dc", .num 120), ("fast_charge_port", .str "CHAdeMO"),
   ("seats", .num 4), ("drivetrain", .str "FWD"), ("length_mm", .num 4700),
   ("width_mm", .num 1900), ("height_mm", .num 1500), ("range_km", .num 450)]

/-- A dataset with exactly two valid rows. -/
def exRaw2 : List Row := [exRow1, exRow2]

/-- A fixed draw sequence standing in for `Math.random`. -/
def exRand : ℕ → ℕ := fun _ => 0

/-- Witness for C3: on the concrete two-row dataset preprocessing
succeeds and stores the statistics fitted on all valid rows; a constant
column has population variance `0` and substituted deviation `1`; the
`seats` column has nonzero variance and keeps its genuine population
standard deviation. -/
theorem c3_witness :
    (isOk (preprocessData exRaw2 exRand) = true
      ∧ statsOf (preprocessData exRaw2 exRand) "seats"
          = fitStats (validRows exRaw2) "seats")
    ∧ (specPopVariance [([] : Row)] "seats" = 0
      ∧ (fitStats [([] : Row)] "seats").std = 1)
    ∧ (specPopVariance exRaw2 "seats" ≠ 0
      ∧ (fitStats exRaw2 "seats").std = Real.sqrt (specPopVariance exRaw2 "seats")) := by
  have hok : isOk (preprocessData exRaw2 exRand) = true := rfl
  have h0 : specPopVariance [([] : Row)] "seats" = 0 := by
    simp [specPopVariance, specMean, numValR, Row.get]
  have hv1 : numValR (Row.get exRow1 "seats") = ((5 : ℚ) : ℝ) := rfl
  have hv2 : numValR (Row.get exRow2 "seats") = ((4 : ℚ) : ℝ) := rfl
  have hne : specPopVariance exRaw2 "seats" ≠ 0 := by
    unfold specPopVariance specMean
    simp only [exRaw2, List.map_cons, List.map_nil, hv1, hv2, List.sum_cons,
      List.sum_nil, List.length_cons, List.length_nil]
    norm_num
  exact ⟨⟨hok, c3_fitStatistics_population_over_all_valid_rows.1 exRaw2 exRand "seats" hok⟩,
    ⟨h0, (c3_fitStatistics_population_over_all_valid_rows.2 [([] : Row)] "seats").2.1 h0⟩,
    hne, (c3_fitStatistics_population_over_all_valid_rows.2 exRaw2 "seats").2.2 hne⟩

/-- Because the transformed length is row-independent, the shape check of
`preprocessData` never finds an offending vector. -/
lemma shapeFilter_empty (rows : List Row) (stats : String → Stats)
    (vocab : String → List JSVal) :
    (rows.map (fun r => transformFeatures r stats vocab)).filter
      (fun t => decide (t.length
        ≠ ((rows.map (fun r => transformFeatures r stats vocab)).headD []).length))
      = [] := by
  rcases rows with _ | ⟨r0, rest⟩
  · rfl
  · rw [List.filter_eq_nil_iff]
    intro t ht
    rcases List.mem_map.mp ht with ⟨r, _, rfl⟩
    simp only [List.map_cons, List.headD_cons, decide_eq_true_eq]
    rw [transformFeatures_length, transformFeatures_length]
    simp

/-- Counterexample to claim C5 as stated: a dataset with exactly two valid
rows (fewer than 5) on which preprocessing succeeds — the split check
does not fail, so "fewer than 5 valid rows ⇒ `InsufficientDataError`" is
false. -/
theorem c5_counterexample :
    (validRows exRaw2).length = 2 ∧ (validRows exRaw2).length < 5
    ∧ isOk (preprocessData exRaw2 exRand) = true
    ∧ preprocessData exRaw2 exRand ≠ .error .insufficientData := by
  have hok : isOk (preprocessData exRaw2 exRand) = true := rfl
  refine ⟨rfl, by decide, hok, fun h => ?_⟩
  rw [h] at hok
  simp [isOk] at hok

/-- Claim C5, amended: The split check fails with `InsufficientDataError`
exactly when the train group or the test group would be empty under the
`floor(n * 0.8)` cut, and for `n ≥ 1` that happens exactly when `n = 1`:
with all required columns present, a dataset with exactly one valid row
fails with `InsufficientDataError`, and every dataset with at least two
valid rows passes the check (and preprocessing succeeds) — two valid
rows already suffice, not five. -/
theorem c5_amended_split_check_needs_two_rows :
    (∀ n : ℕ, 1 ≤ n →
      ((splitIndex n < 1 ∨ n - splitIndex n < 1) ↔ n = 1))
    ∧ (∀ (raw : List Row) (rand : ℕ → ℕ),
        (missingCols (raw.headD [])).isEmpty = true →
        (validRows raw).length = 1 →
        preprocessData raw rand = .error .insufficientData)
    ∧ (∀ (raw : List Row) (rand : ℕ → ℕ),
        (missingCols (raw.headD [])).isEmpty = true →
        2 ≤ (validRows raw).length →
        isOk (preprocessData raw rand) = true) := by
  refine ⟨?_, ?_, ?_⟩
  · intro n hn
    simp only [splitIndex]
    omega
  · intro raw rand hcols hn1
    have hne : validRows raw ≠ [] := by
      intro h
      rw [h] at hn1
      simp at hn1
    have hraw : raw.isEmpty = false := by
      rcases raw with _ | _
      · exact absurd rfl hne
      · rfl
    have hfeat : (validRows raw).isEmpty = false := by
      rcases h : validRows raw with _ | _
      · exact absurd h hne
      · rfl
    simp only [preprocessData, hraw, hcols, hfeat, fitVocabAll_ok hne,
      shapeFilter_empty, Bool.not_true, List.isEmpty_nil, Bool.false_eq_true,
      if_false]
    rw [hn1]
    norm_num [splitIndex]
  · intro raw rand hcols hn2
    have hne : validRows raw ≠ [] := by
      intro h
      rw [h] at hn2
      simp at hn2
    have hraw : raw.isEmpty = false := by
      rcases raw with _ | _
      · exact absurd rfl hne
      · rfl
    have hfeat : (validRows raw).isEmpty = false := by
      rcases h : validRows raw with _ | _
      · exact absurd h hne
      · rfl
    simp only [preprocessData, hraw, hcols, hfeat, fitVocabAll_ok hne,
      shapeFilter_empty, Bool.not_true, List.isEmpty_nil, Bool.false_eq_true,
      if_false]
    rw [if_neg (by simp only [splitIndex]; omega)]
    rfl

/-- Witness for the amended C5: at `n = 5` the equivalence is vacuous;
a one-row dataset with all columns present fails with
`InsufficientDataError`; the two-row dataset passes. -/
theorem c5_witness :
    (1 ≤ 5 ∧ ((splitIndex 5 < 1 ∨ 5 - splitIndex 5 < 1) ↔ 5 = 1))
    ∧ ((missingCols ([exRow1].headD [])).isEmpty = true
        ∧ (validRows [exRow1]).length = 1
        ∧ preprocessData [exRow1] exRand = .error .insufficientData)
    ∧ ((missingCols (exRaw2.headD [])).isEmpty = true
        ∧ 2 ≤ (validRows exRaw2).length
        ∧ isOk (preprocessData exRaw2 exRand) = true) :=
  ⟨⟨by decide, c5_amended_split_check_needs_two_rows.1 5 (by decide)⟩,
   ⟨by decide, by decide,
    c5_amended_split_check_needs_two_rows.2.1 [exRow1] exRand (by decide) (by decide)⟩,
   ⟨by decide, by decide,
    c5_amended_split_check_needs_two_rows.2.2 exRaw2 exRand (by decide) (by decide)⟩⟩

/-! ## Training orchestrator (`src/app.js` and `src/application/app.js`)

`trainModel` and `predict` are modelled as effect traces: the external
numerical library (`tf`) is the collaborator, so tensor creation and
disposal are recorded as events, and `model.fit` is parametrised by the
per-epoch metric records the library reports and by whether it throws
(`fitThrown = some k`: an exception after `k` completed epochs). -/

/-- The tensors a `trainModel` call allocates. -/
inductive Tensor where
  | trainX
  | trainY
  | testX
  | testY
  | evalResult
  deriving DecidableEq, Repr

/-- One per-epoch metrics record (`logs.loss`, `logs.val_loss`, `logs.mae`). -/
structure LogRec where
  loss : ℝ
  valLoss : ℝ
  mae : ℝ

/-- The orchestrator state a training run touches. -/
structure TrainState where
  isTraining : Bool
  history : List LogRec

/-- Outcome of one `trainModel` call: final state, tensors created,
tensors disposed, success flag. -/
structure TrainRun where
  state : TrainState
  created : List Tensor
  disposed : List Tensor
  ok : Bool

/-- Epoch count of the `src/app.js` variant (line 172). -/
def totalEpochsV1 : ℕ := 200

/-- Epoch count of the `src/application/app.js` variant (line 285). -/
def totalEpochsV2 : ℕ := 100

/-- Callback `onEpochEnd` of `src/app.js` (lines 182–186): push unconditionally. -/
def pushEpochV1 (logs : ℕ → LogRec) (h : List LogRec) (e : ℕ) : List LogRec :=
  h ++ [logs e]

/-- Callback `onEpochEnd` of `src/application/app.js` (lines 295–305): records
with missing fields are skipped with a console warning. -/
def pushEpochV2 (logs : ℕ → Option LogRec) (h : List LogRec) (e : ℕ) : List LogRec :=
  match logs e with
  | some r => h ++ [r]
  | none => h

/-- Function `trainModel` of `src/app.js` (lines 157–225): reset history, create
the four training tensors, fit with per-epoch pushes, then evaluate,
dispose all five tensors and clear `isTraining`; on a thrown fit the
`catch` only clears `isTraining` and rethrows — nothing is disposed. -/
def trainModelV1 (st0 : TrainState) (logs : ℕ → LogRec)
    (fitThrown : Option ℕ) : TrainRun :=
  match fitThrown with
  | none =>
    { state := ⟨false, (List.range totalEpochsV1).foldl (pushEpochV1 logs) []⟩
      created := [.trainX, .trainY, .testX, .testY, .evalResult]
      disposed := [.trainX, .trainY, .testX, .testY, .evalResult]
      ok := true }
  | some k =>
    { state := ⟨false, (List.range (min k totalEpochsV1)).foldl (pushEpochV1 logs) []⟩
      created := [.trainX, .trainY, .testX, .testY]
      disposed := []
      ok := false }

/-- Function `trainModel` of `src/application/app.js` (lines 244–354): as
`trainModelV1`, but the `catch` block disposes each of the four training
tensors that were created before rethrowing (lines 347–350). -/
def trainModelV2 (st0 : TrainState) (logs : ℕ → Option LogRec)
    (fitThrown : Option ℕ) : TrainRun :=
  match fitThrown with
  | none =>
    { state := ⟨false, (List.range totalEpochsV2).foldl (pushEpochV2 logs) []⟩
      created := [.trainX, .trainY, .testX, .testY, .evalResult]
      disposed := [.trainX, .trainY, .testX, .testY, .evalResult]
      ok := true }
  | some k =>
    { state := ⟨false, (List.range (min k totalEpochsV2)).foldl (pushEpochV2 logs) []⟩
      created := [.trainX, .trainY, .testX, .testY]
      disposed := [.trainX, .trainY, .testX, .testY]
      ok := false }

/-- Counterexample to claim C4 as stated: in the `src/app.js` variant a fit
exception thrown at the start leaves all four created tensors undisposed
— the failure path releases nothing before the error propagates. -/
theorem c4_counterexample :
    (trainModelV1 ⟨false, []⟩ (fun _ => ⟨0, 0, 0⟩) (some 0)).created
        = [.trainX, .trainY, .testX, .testY]
    ∧ (trainModelV1 ⟨false, []⟩ (fun _ => ⟨0, 0, 0⟩) (some 0)).disposed = []
    ∧ Tensor.trainX ∈ (trainModelV1 ⟨false, []⟩ (fun _ => ⟨0, 0, 0⟩) (some 0)).created
    ∧ Tensor.trainX ∉ (trainModelV1 ⟨false, []⟩ (fun _ => ⟨0, 0, 0⟩) (some 0)).disposed := by
  refine ⟨rfl, rfl, ?_, ?_⟩
  · simp [trainModelV1]
  · simp [trainModelV1]

/-- Claim C4, amended: In the `src/application/app.js` variant every
tensor created by `trainModel` is also disposed on every exit path
(the four training tensors on the failure path, all five including the
evaluation results on success); in the `src/app.js` variant this holds
only on the success path. -/
theorem c4_amended_tensor_cleanup :
    (∀ (st0 : TrainState) (logs : ℕ → Option LogRec) (fitThrown : Option ℕ),
        (trainModelV2 st0 logs fitThrown).created
          ⊆ (trainModelV2 st0 logs fitThrown).disposed)
    ∧ (∀ (st0 : TrainState) (logs : ℕ → LogRec),
        (trainModelV1 st0 logs none).created
          ⊆ (trainModelV1 st0 logs none).disposed) := by
  constructor
  · intro st0 logs fitThrown
    rcases fitThrown with _ | k
    · intro t ht
      simpa [trainModelV2] using ht
    · intro t ht
      simpa [trainModelV2] using ht
  · intro st0 logs
    intro t ht
    simpa [trainModelV1] using ht

/-- Running the epoch loop of `src/app.js` appends exactly the reported
records in epoch order. -/
lemma pushEpochV1_run (logs : ℕ → LogRec) (h0 : List LogRec) :
    ∀ m, (List.range m).foldl (pushEpochV1 logs) h0 = h0 ++ (List.range m).map logs := by
  intro m
  induction m with
  | zero => simp
  | succ k ih =>
    rw [List.range_succ, List.foldl_append, ih, List.map_append]
    simp [pushEpochV1]

/-- Running the epoch loop of `src/application/app.js` on well-formed
records appends exactly the reported records in epoch order. -/
lemma pushEpochV2_run (f : ℕ → LogRec) (h0 : List LogRec) :
    ∀ m, (List.range m).foldl (pushEpochV2 (fun e => some (f e))) h0
      = h0 ++ (List.range m).map f := by
  intro m
  induction m with
  | zero => simp
  | succ k ih =>
    rw [List.range_succ, List.foldl_append, ih, List.map_append]
    simp [pushEpochV2]

/-- Claim C8: The training history is reset to empty at the start of every
run (the result never depends on the incoming history), exactly one
record per epoch is appended in epoch order during the run (after `k`
callbacks the history is the first `k` records), and on successful
completion its length equals the configured epoch count — in both
variants (for the `src/application/app.js` variant, with the library
reporting well-formed records). -/
theorem c8_history_reset_one_record_per_epoch :
    (∀ (st0 : TrainState) (logs : ℕ → LogRec) (k : ℕ),
        (trainModelV1 st0 logs none).state.history = (List.range totalEpochsV1).map logs
        ∧ (trainModelV1 st0 logs none).state.history.length = totalEpochsV1
        ∧ (List.range k).foldl (pushEpochV1 logs) [] = (List.range k).map logs)
    ∧ (∀ (st0 : TrainState) (f : ℕ → LogRec),
        (trainModelV2 st0 (fun e => some (f e)) none).state.history
            = (List.range totalEpochsV2).map f
        ∧ (trainModelV2 st0 (fun e => some (f e)) none).state.history.length
            = totalEpochsV2) := by
  constructor
  · intro st0 logs k
    refine ⟨?_, ?_, by simpa using pushEpochV1_run logs [] k⟩
    · show (List.range totalEpochsV1).foldl (pushEpochV1 logs) []
          = (List.range totalEpochsV1).map logs
      simpa using pushEpochV1_run logs [] totalEpochsV1
    · show ((List.range totalEpochsV1).foldl (pushEpochV1 logs) []).length = totalEpochsV1
      rw [pushEpochV1_run logs [] totalEpochsV1]
      simp
  · intro st0 f
    constructor
    · show (List.range totalEpochsV2).foldl (pushEpochV2 (fun e => some (f e))) []
          = (List.range totalEpochsV2).map f
      simpa using pushEpochV2_run f [] totalEpochsV2
    · show ((List.range totalEpochsV2).foldl (pushEpochV2 (fun e => some (f e))) []).length
          = totalEpochsV2
      rw [pushEpochV2_run f [] totalEpochsV2]
      simp

/-! ## `predict()` (src/app.js lines 337–392, application/app.js 466–521) -/

/-- The two orchestrator flags guarding `predict`. -/
structure AppState where
  isModelReady : Bool
  isTraining : Bool
  deriving DecidableEq, Repr

/-- Effects of a prediction, in order of occurrence. -/
inductive PredictEvent where
  | transformApplied
  | tensorCreate
  | forwardPass
  | tensorDispose
  deriving DecidableEq, Repr

/-- What a `predict` call produces for the caller. -/
inductive PredictResult where
  | noop
  | validationError (field : String)
  | predicted (rangeKm : ℤ)

/-- The validation test (lines 359–363): `null`, `undefined`, or a `NaN`
number is invalid (strings are never `NaN` numbers: the `typeof` guard). -/
def isBadInput : JSVal → Bool
  | .null => true
  | .undef => true
  | .nan => true
  | _ => false

/-- The first field of the input object failing validation, in entry
order — the field named by the thrown `ValidationError`. -/
def firstInvalid (input : Row) : Option String :=
  (input.find? (fun p => isBadInput p.2)).map (·.1)

/-- Function `predict()`: a silent no-op unless the model is ready and no training
run is in progress; otherwise validate every field, transform the record
with the stored statistics/vocabulary, run one forward pass on a fresh
tensor inside `tidy`, read, round to whole kilometers, and dispose.
Returns the (unchanged) state, the result, and the ordered effect
trace. -/
noncomputable def predict (st : AppState) (stats : String → Stats)
    (vocab : String → List JSVal) (model : List ℝ → ℝ) (input : Row) :
    AppState × PredictResult × List PredictEvent :=
  if !st.isModelReady || st.isTraining then (st, .noop, [])
  else
    match firstInvalid input with
    | some k => (st, .validationError k, [])
    | none =>
        (st, .predicted (round (model (transformFeatures input stats vocab))),
         [.transformApplied, .tensorCreate, .forwardPass, .tensorDispose])

/-- Claim C6: `Predict` is a no-op — returns without error and without
changing any state, with no effects — whenever the model is not ready or
a training run is in progress; in particular no prediction forward pass
ever happens while training. -/
theorem c6_predict_noop_when_not_ready_or_training :
    (∀ (st : AppState) (stats : String → Stats) (vocab : String → List JSVal)
        (model : List ℝ → ℝ) (input : Row),
        st.isModelReady = false ∨ st.isTraining = true →
        predict st stats vocab model input = (st, .noop, []))
    ∧ (∀ (st : AppState) (stats : String → Stats) (vocab : String → List JSVal)
        (model : List ℝ → ℝ) (input : Row),
        st.isTraining = true →
        PredictEvent.forwardPass ∉ (predict st stats vocab model input).2.2) := by
  have h1 : ∀ (st : AppState) (stats : String → Stats) (vocab : String → List JSVal)
      (model : List ℝ → ℝ) (input : Row),
      st.isModelReady = false ∨ st.isTraining = true →
      predict st stats vocab model input = (st, .noop, []) := by
    intro st stats vocab model input h
    rcases h with h | h
    · simp [predict, h]
    · simp [predict, h]
  refine ⟨h1, ?_⟩
  intro st stats vocab model input h
  rw [h1 st stats vocab model input (Or.inr h)]
  simp

/-- Witness for C6: while training, a fully valid input produces no
effects and leaves the state unchanged. -/
theorem c6_witness :
    ((AppState.mk true true).isModelReady = false
        ∨ (AppState.mk true true).isTraining = true)
    ∧ predict (AppState.mk true true) (fun _ => ⟨0, 1⟩) (fun _ => [])
        (fun _ => 0) exRow1 = (AppState.mk true true, .noop, [])
    ∧ PredictEvent.forwardPass
        ∉ (predict (AppState.mk true true) (fun _ => ⟨0, 1⟩) (fun _ => [])
            (fun _ => 0) exRow1).2.2 :=
  ⟨Or.inr rfl,
   c6_predict_noop_when_not_ready_or_training.1 (AppState.mk true true)
     (fun _ => ⟨0, 1⟩) (fun _ => []) (fun _ => 0) exRow1 (Or.inr rfl),
   c6_predict_noop_when_not_ready_or_training.2 (AppState.mk true true)
     (fun _ => ⟨0, 1⟩) (fun _ => []) (fun _ => 0) exRow1 rfl⟩

/-- Claim C7: When `predict` runs (model ready, not training) on an input
in which some field is `null`, `undefined`, or `NaN`, it fails validation
with a `ValidationError` naming an offending field, and no effect occurs:
no transform with the stored statistics/vocabulary is applied and no
inference tensor is ever created. -/
theorem c7_predict_validation_before_tensors (st : AppState)
    (stats : String → Stats) (vocab : String → List JSVal)
    (model : List ℝ → ℝ) (input : Row) (k : String) (v : JSVal)
    (hready : st.isModelReady = true) (htraining : st.isTraining = false)
    (hmem : (k, v) ∈ input) (hbad : isBadInput v = true) :
    (∃ k' v', (predict st stats vocab model input).2.1 = .validationError k'
        ∧ (k', v') ∈ input ∧ isBadInput v' = true)
    ∧ (predict st stats vocab model input).2.2 = []
    ∧ PredictEvent.tensorCreate ∉ (predict st stats vocab model input).2.2
    ∧ PredictEvent.transformApplied ∉ (predict st stats vocab model input).2.2 := by
  have hguard : (!st.isModelReady || st.isTraining) = false := by
    rw [hready, htraining]
    rfl
  rcases hfi : firstInvalid input with _ | k'
  · exfalso
    unfold firstInvalid at hfi
    rw [Option.map_eq_none'] at hfi
    rw [List.find?_eq_none] at hfi
    exact absurd hbad (by simpa using hfi (k, v) hmem)
  · have hres : predict st stats vocab model input = (st, .validationError k', []) := by
      unfold predict
      rw [hguard, hfi]
      rfl
    unfold firstInvalid at hfi
    rw [Option.map_eq_some'] at hfi
    rcases hfi with ⟨⟨k2, v2⟩, hfind, hk⟩
    refine ⟨⟨k', v2, ?_, ?_, ?_⟩, ?_, ?_, ?_⟩
    · rw [hres]
    · rw [← hk]
      simpa using List.mem_of_find?_eq_some hfind
    · simpa using List.find?_some hfind
    · rw [hres]
    · rw [hres]
      simp
    · rw [hres]
      simp

/-- A user input with every field present except `seats`, which parsed
to `NaN` (as `parseInt("")` does when the field is left empty). -/
def exInputC7 : Row :=
  [("top_speed_kmh", .num 150), ("battery_capacity_kWh", .num 60),
   ("torque_nm", .num 310), ("acceleration_0_100_s", .num 8),
   ("fast_charging_power_kw_dc", .num 100), ("fast_charge_port", .str "CCS"),
   ("seats", .nan), ("drivetrain", .str "AWD"), ("length_mm", .num 4500),
   ("width_mm", .num 1850), ("height_mm", .num 1550)]

/-- Witness for C7: a ready, non-training state and the `seats = NaN`
input yield a `ValidationError` naming an offending field, with no
effects. -/
theorem c7_witness :
    ((AppState.mk true false).isModelReady = true
        ∧ (AppState.mk true false).isTraining = false
        ∧ ("seats", JSVal.nan) ∈ exInputC7 ∧ isBadInput JSVal.nan = true)
    ∧ (∃ k' v', (predict (AppState.mk true false) (fun _ => ⟨0, 1⟩) (fun _ => [])
          (fun _ => 0) exInputC7).2.1 = .validationError k'
        ∧ (k', v') ∈ exInputC7 ∧ isBadInput v' = true)
    ∧ (predict (AppState.mk true false) (fun _ => ⟨0, 1⟩) (fun _ => [])
        (fun _ => 0) exInputC7).2.2 = [] :=
  ⟨⟨rfl, rfl, by decide, rfl⟩,
   (c7_predict_validation_before_tensors (AppState.mk true false) (fun _ => ⟨0, 1⟩)
      (fun _ => []) (fun _ => 0) exInputC7 "seats" JSVal.nan rfl rfl (by decide) rfl).1,
   (c7_predict_validation_before_tensors (AppState.mk true false) (fun _ => ⟨0, 1⟩)
      (fun _ => []) (fun _ => 0) exInputC7 "seats" JSVal.nan rfl rfl (by decide) rfl).2.1⟩

end EV
